import Mathlib

/- Shallow embedding of src/app.py (NeoVand/Debater): the debate
   orchestration logic of start_debate, stop_debate and reset_debate.
   External effects are modelled as inputs: the connectivity probe result
   is a Bool, random.randint(0, 1) is a Nat input, and each call of
   generate_output is one TurnOutcome of a supplied schedule. -/

/-- One transcript entry of the conversation list (app.py lines 305-308). -/
structure ConversationEntry where
  name : String
  content : String
deriving DecidableEq, Repr

/-- One display entry of chat_history (app.py line 304). -/
structure ChatMsg where
  role : String
  content : String
deriving DecidableEq, Repr

/-- The per-entry formatting of app.py line 275. -/
def formatEntry (m : ConversationEntry) : String :=
  m.name ++ ": " ++ m.content ++ "\n"

/-- The memory accumulation loop of app.py lines 272-279: walk the reversed
conversation, add each formatted length to the running length, break when the
running length goes over the budget, otherwise put the formatted entry in
front of the text built so far. -/
def memoryLoop : List ConversationEntry → Int → Int → String → String
  | [], _, _, acc => acc
  | msg :: rest, budget, len, acc =>
    let t := formatEntry msg
    if len + t.length > budget then acc
    else memoryLoop rest budget (len + t.length) (t ++ acc)

/-- memory_text computed for one turn (app.py lines 272-279). -/
def memoryText (conversation : List ConversationEntry) (budget : Int) : String :=
  memoryLoop conversation.reverse budget 0 ""

/-- The prompt assembled in app.py lines 282-288. -/
def buildPrompt (systemPrompt stageRules topicText memoryT agentNm : String) : String :=
  systemPrompt ++ "\n\n" ++ stageRules.trim ++ "\n\n" ++ "Topic: " ++ topicText.trim
    ++ "\n\n" ++ memoryT ++ agentNm ++ ":"

/-- One line of response.iter_lines() as consumed by app.py lines 312-319:
an empty (falsy) line is ignored; a non-empty line goes through json.loads,
which either raises or yields a record that may carry a response string. -/
inductive StreamLine where
  | empty : StreamLine
  | badJson (raw : String) : StreamLine
  | record (response : Option String) : StreamLine
deriving DecidableEq, Repr

/-- The two exceptions the loop body can raise. -/
inductive PyError where
  | jsonDecodeError
  | indexError
deriving DecidableEq, Repr

/-- Assignment to xs[-1] in Python: fails on an empty list with IndexError. -/
def setLast {α : Type} : List α → (α → α) → Option (List α)
  | [], _ => none
  | [x], f => some [f x]
  | x :: y :: r, f => (setLast (y :: r) f).map (x :: ·)

/-- The state the while-loop of start_debate works on: the two shared
transcript lists, the local message_count and current_agent_index, the
running flag read from debate_state, and the last status_text. -/
structure LoopState where
  conversation : List ConversationEntry
  chat_history : List ChatMsg
  message_count : Nat
  current_agent_index : Nat
  running : Bool
  status : String
deriving DecidableEq, Repr

/-- Name of agents[i] with i in {0, 1} (app.py lines 230-249, 269). -/
def agentName (a1 a2 : String) (i : Nat) : String :=
  if i = 0 then a1 else a2

/-- Role chosen in app.py line 302. -/
def roleFor (i : Nat) : String :=
  if i = 0 then "user" else "assistant"

/-- The streaming loop of app.py lines 312-329, carrying full_response and
rewriting the last entry of both transcript lists per response fragment.
A non-empty line that json.loads cannot parse raises JSONDecodeError; the
running flag is checked before each line. -/
def streamLoop (nm : String) : List StreamLine → String → LoopState →
    Except PyError (String × LoopState)
  | [], full, s => .ok (full, s)
  | .empty :: rest, full, s =>
    if s.running = false then .ok (full, s)
    else streamLoop nm rest full s
  | .badJson _ :: _, full, s =>
    if s.running = false then .ok (full, s)
    else .error .jsonDecodeError
  | .record none :: rest, full, s =>
    if s.running = false then .ok (full, s)
    else streamLoop nm rest full s
  | .record (some r) :: rest, full, s =>
    if s.running = false then .ok (full, s)
    else
      let full2 := full ++ r
      match setLast s.chat_history (fun m => { m with content := nm ++ ": " ++ full2 }),
            setLast s.conversation (fun e => { e with content := full2 }) with
      | some ch, some cv =>
        streamLoop nm rest full2
          { s with chat_history := ch, conversation := cv,
                   status := nm ++ " is typing..." }
      | _, _ => .error .indexError

/-- Result of one generate_output call (app.py line 298): none on
requests.RequestException, otherwise a streaming response whose iter_lines
yields the given lines. -/
inductive TurnOutcome where
  | failure
  | success (lines : List StreamLine)
deriving DecidableEq, Repr

/-- One iteration of the while-loop of start_debate (app.py lines 268-362),
given the generate_output result for this turn. In the success branch the
strip of line 330 lands in the local full_response only and is never written
back to the transcripts. The Bool of the result is true when the iteration
ended with the break of line 349. -/
def turnStep (a1 a2 : String) (o : TurnOutcome) (s : LoopState) :
    Except PyError (LoopState × Bool) :=
  let nm := agentName a1 a2 s.current_agent_index
  let afterGen : Except PyError LoopState :=
    match o with
    | .success lines =>
      let s1 : LoopState := { s with
        chat_history := s.chat_history ++ [{ role := roleFor s.current_agent_index,
                                             content := nm ++ ": " }],
        conversation := s.conversation ++ [{ name := nm, content := "" }],
        message_count := s.message_count + 1 }
      match streamLoop nm lines "" s1 with
      | .error e => .error e
      | .ok (_, s2) => .ok s2
    | .failure =>
      match setLast s.chat_history
              (fun m => { m with content := nm ++ ": " ++ "Error generating response." }),
            setLast s.conversation
              (fun e => { e with content := "Error generating response." }) with
      | some ch, some cv =>
        .ok { s with chat_history := ch, conversation := cv,
                     status := nm ++ " encountered an error." }
      | _, _ => .error .indexError
  match afterGen with
  | .error e => .error e
  | .ok sB =>
    if sB.running = false then
      .ok ({ sB with status := "🛑 Debate stopped." }, true)
    else
      .ok ({ sB with status := nm ++ " finished responding.",
                     current_agent_index := 1 - sB.current_agent_index }, false)

/-- The while-loop of app.py line 268, driven by the successive
generate_output results; the loop also ends when the supplied results run
out, modelling a finite observation of the run. -/
def debateLoop (a1 a2 : String) : List TurnOutcome → LoopState →
    Except PyError LoopState
  | [], s => .ok s
  | o :: rest, s =>
    if s.message_count < 1000 ∧ s.running = true then
      match turnStep a1 a2 o s with
      | .error e => .error e
      | .ok (s2, true) => .ok s2
      | .ok (s2, false) => debateLoop a1 a2 rest s2
    else .ok s

/-- Lines 364-373 of app.py: the limit message when the cap was reached, and
running set to false in every case. -/
def debateEpilogue (s : LoopState) : LoopState :=
  let s1 := if 1000 ≤ s.message_count then
    { s with status := "Debate ended after reaching message limit.",
             running := false }
  else s
  { s1 with running := false }

/-- The debate_state record of app.py line 185. -/
structure DebateState where
  running : Bool
  conversation : List ConversationEntry
  chat_history : List ChatMsg
  message_count : Nat
  current_agent_index : Option Nat
deriving DecidableEq, Repr

/-- How a call of start_debate unfolds (app.py lines 220-373): the early
return when already running, the early return when the connectivity probe
fails, or a run of the loop on a prepared state. -/
inductive StartOutcome where
  | alreadyRunning (st : DebateState)
  | connectFailed (st : DebateState) (statusMsg : String)
  | ran (result : Except PyError LoopState)
deriving Repr

/-- start_debate (app.py lines 209-373) with the probe result, the random
index and the generate_output schedule as explicit inputs. -/
def start_debate (a1 a2 : String) (connected : Bool) (randIdx : Nat)
    (outs : List TurnOutcome) (st : DebateState) : StartOutcome :=
  if st.running then .alreadyRunning st
  else if connected = false then
    .connectFailed st
      "Cannot connect to Ollama server. Please check the URL and ensure the server is running."
  else
    let idx := st.current_agent_index.getD randIdx
    let ls : LoopState := {
      conversation := st.conversation,
      chat_history := st.chat_history,
      message_count := st.message_count,
      current_agent_index := idx,
      running := true,
      status := "🚀 Debate started." }
    .ran ((debateLoop a1 a2 outs ls).map debateEpilogue)

/-- reset_debate (app.py lines 382-391). -/
def reset_debate (_st : DebateState) : DebateState × String :=
  ({ running := false, conversation := [], chat_history := [],
     message_count := 0, current_agent_index := none }, "🔄 Debate reset.")

/-- stop_debate (app.py lines 375-380): clears the running flag. -/
def stop_debate (st : DebateState) : DebateState × String :=
  ({ st with running := false }, "🛑 Debate stopped.")

/-- Concatenation of the response fragments carried by a line list. -/
def frags : List StreamLine → String
  | [] => ""
  | .record (some r) :: rest => r ++ frags rest
  | _ :: rest => frags rest

/-- No line of the list makes json.loads raise. -/
def linesOk : List StreamLine → Bool
  | [] => true
  | .badJson _ :: _ => false
  | _ :: rest => linesOk rest

/-- Formatted length of one entry. -/
def entryLen (m : ConversationEntry) : Nat := (formatEntry m).length

/-- Total formatted length of a list of entries. -/
def sumLen : List ConversationEntry → Nat
  | [] => 0
  | m :: rest => entryLen m + sumLen rest

/-- Chronological rendering of whole entries, oldest first. -/
def render : List ConversationEntry → String
  | [] => ""
  | m :: rest => formatEntry m ++ render rest

/-- Rendering of a newest-first list of entries. -/
def renderRev : List ConversationEntry → String
  | [] => ""
  | m :: rest => renderRev rest ++ formatEntry m

/-- The newest-first run of entries the memory loop includes before the
first entry that would push the running length past the budget. -/
def takeWithin : List ConversationEntry → Int → List ConversationEntry
  | [], _ => []
  | m :: rest, r =>
    if (entryLen m : Int) > r then []
    else m :: takeWithin rest (r - entryLen m)

/-- Python str.strip() with no argument: drop whitespace from both ends, as
applied to full_response at app.py line 330. -/
def pyStrip (s : String) : String :=
  ⟨((s.data.dropWhile Char.isWhitespace).reverse.dropWhile Char.isWhitespace).reverse⟩

lemma entryLen_pos (m : ConversationEntry) : 1 ≤ entryLen m := by
  have h1 : (": " : String).length = 2 := rfl
  have h2 : ("\n" : String).length = 1 := rfl
  simp only [entryLen, formatEntry, String.length_append, h1, h2]
  omega

lemma sumLen_append (a b : List ConversationEntry) :
    sumLen (a ++ b) = sumLen a + sumLen b := by
  induction a with
  | nil => simp [sumLen]
  | cons m rest ih => simp [sumLen, ih]; omega

lemma sumLen_reverse (l : List ConversationEntry) : sumLen l.reverse = sumLen l := by
  induction l with
  | nil => rfl
  | cons m rest ih =>
    simp only [List.reverse_cons, sumLen_append, ih, sumLen]
    omega

lemma render_append (a b : List ConversationEntry) :
    render (a ++ b) = render a ++ render b := by
  induction a with
  | nil => simp [render, String.empty_append]
  | cons m rest ih => simp [render, ih, String.append_assoc]

lemma renderRev_eq (l : List ConversationEntry) : renderRev l = render l.reverse := by
  induction l with
  | nil => rfl
  | cons m rest ih =>
    simp only [renderRev, List.reverse_cons, render_append, ih, render,
      String.append_empty]

lemma render_length (l : List ConversationEntry) : (render l).length = sumLen l := by
  induction l with
  | nil => rfl
  | cons m rest ih =>
    simp only [render, String.length_append, ih, sumLen, entryLen]

lemma memoryLoop_eq (rl : List ConversationEntry) :
    ∀ (b len : Int) (acc : String),
      memoryLoop rl b len acc = renderRev (takeWithin rl (b - len)) ++ acc := by
  induction rl with
  | nil => intro b len acc; simp [memoryLoop, takeWithin, renderRev, String.empty_append]
  | cons m rest ih =>
    intro b len acc
    have hlen : ((formatEntry m).length : Int) = (entryLen m : Int) := rfl
    by_cases hc : (entryLen m : Int) > b - len
    · rw [memoryLoop, takeWithin]
      rw [if_pos (by rw [hlen]; omega), if_pos hc]
      simp [renderRev, String.empty_append]
    · rw [memoryLoop, takeWithin]
      rw [if_neg (by rw [hlen]; omega), if_neg hc]
      rw [ih]
      have harg : b - (len + ((formatEntry m).length : Int)) = b - len - (entryLen m : Int) := by
        rw [hlen]; omega
      rw [harg]
      simp [renderRev, String.append_assoc]

lemma memoryText_eq (h : List ConversationEntry) (b : Int) :
    memoryText h b = renderRev (takeWithin h.reverse b) := by
  rw [memoryText, memoryLoop_eq]
  simp [String.append_empty]

lemma takeWithin_le (rl : List ConversationEntry) :
    ∀ r : Int, takeWithin rl r ≠ [] → (sumLen (takeWithin rl r) : Int) ≤ r := by
  induction rl with
  | nil => intro r hne; simp [takeWithin] at hne
  | cons m rest ih =>
    intro r hne
    by_cases hc : (entryLen m : Int) > r
    · rw [takeWithin, if_pos hc] at hne; exact absurd rfl hne
    · rw [takeWithin, if_neg hc] at hne ⊢
      by_cases h2 : takeWithin rest (r - entryLen m) = []
      · rw [h2]; simp [sumLen]; omega
      · have := ih (r - (entryLen m : Int)) h2
        simp only [sumLen]
        push_cast
        push_cast at this
        omega

lemma takeWithin_division (rl : List ConversationEntry) :
    ∀ r : Int, takeWithin rl r = rl ∨
      ∃ m t, rl = takeWithin rl r ++ m :: t ∧
        r < (sumLen (takeWithin rl r) : Int) + entryLen m := by
  induction rl with
  | nil => intro r; left; rfl
  | cons m rest ih =>
    intro r
    by_cases hc : (entryLen m : Int) > r
    · right
      refine ⟨m, rest, ?_, ?_⟩
      · rw [takeWithin, if_pos hc]; rfl
      · rw [takeWithin, if_pos hc]; simp [sumLen]; omega
    · rcases ih (r - entryLen m) with hall | ⟨m2, t, hsplit, hover⟩
      · left; rw [takeWithin, if_neg hc, hall]
      · right
        refine ⟨m2, t, ?_, ?_⟩
        · rw [takeWithin, if_neg hc]
          simpa using congrArg (m :: ·) hsplit
        · rw [takeWithin, if_neg hc]
          simp only [sumLen]
          push_cast
          omega

lemma takeWithin_nil_of_nonpos (rl : List ConversationEntry) (r : Int) (hr : r ≤ 0) :
    takeWithin rl r = [] := by
  cases rl with
  | nil => rfl
  | cons m rest =>
    rw [takeWithin, if_pos]
    have := entryLen_pos m
    omega

lemma memoryText_len (h : List ConversationEntry) (b : Int) :
    memoryText h b = "" ∨ ((memoryText h b).length : Int) ≤ b := by
  rw [memoryText_eq]
  by_cases hp : takeWithin h.reverse b = []
  · left; rw [hp]; rfl
  · right
    rw [renderRev_eq, render_length, sumLen_reverse]
    exact takeWithin_le h.reverse b hp

lemma memoryText_nonpos (h : List ConversationEntry) (b : Int) (hb : b ≤ 0) :
    memoryText h b = "" := by
  rw [memoryText_eq, takeWithin_nil_of_nonpos h.reverse b hb]
  rfl

/-- C3: for every history and every integer budget, memory_text is the
rendering, oldest first and with no entry cut, of a newest block h.drop n of
the history; the walk stops before the first entry whose formatted length
pushes the running length strictly past the budget (n = 0, or the running
length including entry n - 1 goes over the budget); the output length never
goes past the budget unless the output is empty; and a budget at most 0
yields the empty string. -/
theorem memory_window_spec (h : List ConversationEntry) (b : Int) :
    ∃ n, n ≤ h.length ∧
      memoryText h b = render (h.drop n) ∧
      (h.drop n = [] ∨ (sumLen (h.drop n) : Int) ≤ b) ∧
      (n = 0 ∨ b < (sumLen (h.drop (n - 1)) : Int)) ∧
      (memoryText h b = "" ∨ ((memoryText h b).length : Int) ≤ b) ∧
      (b ≤ 0 → memoryText h b = "") := by
  rcases takeWithin_division h.reverse b with hall | ⟨m, t, hsplit, hover⟩
  · refine ⟨0, Nat.zero_le _, ?_, ?_, Or.inl rfl, memoryText_len h b,
      fun hb => memoryText_nonpos h b hb⟩
    · rw [memoryText_eq, hall, renderRev_eq, List.reverse_reverse, List.drop_zero]
    · by_cases hh : h = []
      · exact Or.inl (by simp [hh])
      · right
        rw [List.drop_zero]
        have hne : takeWithin h.reverse b ≠ [] := by
          rw [hall]; simpa using hh
        have hle := takeWithin_le h.reverse b hne
        rw [hall, sumLen_reverse] at hle
        exact hle
  · have hple := takeWithin_le h.reverse b
    generalize hp : takeWithin h.reverse b = p at hsplit hover hple
    have hh : h = (t.reverse ++ [m]) ++ p.reverse := by
      have h2 := congrArg List.reverse hsplit
      rw [List.reverse_reverse] at h2
      rw [h2]
      simp [List.reverse_append]
    have hdropn : h.drop (t.length + 1) = p.reverse := by
      rw [hh, show t.length + 1 = (t.reverse ++ [m]).length by simp]
      exact List.drop_left _ _
    have hdropn1 : h.drop t.length = m :: p.reverse := by
      rw [hh, List.append_assoc, List.singleton_append,
        show t.length = t.reverse.length by simp]
      exact List.drop_left _ _
    refine ⟨t.length + 1, ?_, ?_, ?_, ?_, memoryText_len h b,
      fun hb => memoryText_nonpos h b hb⟩
    · have := congrArg List.length hh
      simp at this
      omega
    · rw [memoryText_eq, hp, renderRev_eq, hdropn]
    · rw [hdropn]
      by_cases hpe : p = []
      · exact Or.inl (by simp [hpe])
      · right
        rw [sumLen_reverse]
        exact hple hpe
    · right
      rw [Nat.add_sub_cancel, hdropn1]
      simp only [sumLen, sumLen_reverse]
      push_cast
      omega

/-- Witness for memory_window_spec at a concrete history and budget. -/
theorem memory_window_spec_witness :
    ∃ n, n ≤ ([⟨"old", "0123456789012345678901234567890123456"⟩,
               ⟨"A", "hello hello hello"⟩] : List ConversationEntry).length ∧
      memoryText [⟨"old", "0123456789012345678901234567890123456"⟩,
                  ⟨"A", "hello hello hello"⟩] 50 =
        render (([⟨"old", "0123456789012345678901234567890123456"⟩,
                  ⟨"A", "hello hello hello"⟩] : List ConversationEntry).drop n) ∧
      ((([⟨"old", "0123456789012345678901234567890123456"⟩,
          ⟨"A", "hello hello hello"⟩] : List ConversationEntry).drop n) = [] ∨
        (sumLen (([⟨"old", "0123456789012345678901234567890123456"⟩,
                   ⟨"A", "hello hello hello"⟩] : List ConversationEntry).drop n) : Int) ≤ 50) ∧
      (n = 0 ∨ (50 : Int) < (sumLen (([⟨"old", "0123456789012345678901234567890123456"⟩,
          ⟨"A", "hello hello hello"⟩] : List ConversationEntry).drop (n - 1)) : Int)) ∧
      (memoryText [⟨"old", "0123456789012345678901234567890123456"⟩,
                   ⟨"A", "hello hello hello"⟩] 50 = "" ∨
        ((memoryText [⟨"old", "0123456789012345678901234567890123456"⟩,
                      ⟨"A", "hello hello hello"⟩] 50).length : Int) ≤ 50) ∧
      ((50 : Int) ≤ 0 → memoryText [⟨"old", "0123456789012345678901234567890123456"⟩,
                                    ⟨"A", "hello hello hello"⟩] 50 = "") :=
  memory_window_spec
    [⟨"old", "0123456789012345678901234567890123456"⟩, ⟨"A", "hello hello hello"⟩] 50

lemma setLast_append {α : Type} (l : List α) (x : α) (f : α → α) :
    setLast (l ++ [x]) f = some (l ++ [f x]) := by
  induction l with
  | nil => rfl
  | cons a rest ih =>
    cases rest with
    | nil => rfl
    | cons b r =>
      simp only [List.cons_append] at ih ⊢
      rw [setLast, ih]
      rfl

lemma streamLoop_run (lines : List StreamLine) :
    ∀ (nm acc : String) (cv : List ConversationEntry) (ch : List ChatMsg)
      (enm erole st : String) (mc idx : Nat),
      linesOk lines = true →
      ∃ st2 : String,
        streamLoop nm lines acc
          ⟨cv ++ [⟨enm, acc⟩], ch ++ [⟨erole, nm ++ ": " ++ acc⟩], mc, idx, true, st⟩ =
        .ok (acc ++ frags lines,
          ⟨cv ++ [⟨enm, acc ++ frags lines⟩],
           ch ++ [⟨erole, nm ++ ": " ++ (acc ++ frags lines)⟩], mc, idx, true, st2⟩) := by
  induction lines with
  | nil =>
    intro nm acc cv ch enm erole st mc idx _
    exact ⟨st, by simp [streamLoop, frags, String.append_empty]⟩
  | cons l rest ih =>
    intro nm acc cv ch enm erole st mc idx hok
    cases l with
    | empty =>
      simp only [linesOk] at hok
      obtain ⟨st2, h2⟩ := ih nm acc cv ch enm erole st mc idx hok
      exact ⟨st2, by simpa [streamLoop, frags] using h2⟩
    | badJson raw => simp [linesOk] at hok
    | record o =>
      cases o with
      | none =>
        simp only [linesOk] at hok
        obtain ⟨st2, h2⟩ := ih nm acc cv ch enm erole st mc idx hok
        exact ⟨st2, by simpa [streamLoop, frags] using h2⟩
      | some r =>
        simp only [linesOk] at hok
        obtain ⟨st2, h2⟩ := ih nm (acc ++ r) cv ch enm erole (nm ++ " is typing...") mc idx hok
        refine ⟨st2, ?_⟩
        have hset1 : setLast (ch ++ [(⟨erole, nm ++ ": " ++ acc⟩ : ChatMsg)])
            (fun m => { m with content := nm ++ ": " ++ (acc ++ r) }) =
            some (ch ++ [⟨erole, nm ++ ": " ++ (acc ++ r)⟩]) := setLast_append ch _ _
        have hset2 : setLast (cv ++ [(⟨enm, acc⟩ : ConversationEntry)])
            (fun e => { e with content := acc ++ r }) =
            some (cv ++ [⟨enm, acc ++ r⟩]) := setLast_append cv _ _
        simp only [streamLoop, frags, hset1, hset2]
        simp only [← String.append_assoc] at h2 ⊢
        exact h2

lemma turnStep_success (a1 a2 : String) (lines : List StreamLine) (s : LoopState)
    (hrun : s.running = true) (hok : linesOk lines = true) :
    turnStep a1 a2 (.success lines) s =
      .ok ({ conversation := s.conversation ++
               [⟨agentName a1 a2 s.current_agent_index, frags lines⟩],
             chat_history := s.chat_history ++
               [⟨roleFor s.current_agent_index,
                 agentName a1 a2 s.current_agent_index ++ ": " ++ frags lines⟩],
             message_count := s.message_count + 1,
             current_agent_index := 1 - s.current_agent_index,
             running := true,
             status := agentName a1 a2 s.current_agent_index ++ " finished responding." },
           false) := by
  obtain ⟨cv, ch, mc, idx, rn, st⟩ := s
  subst hrun
  obtain ⟨st2, h2⟩ := streamLoop_run lines (agentName a1 a2 idx) "" cv ch
    (agentName a1 a2 idx) (roleFor idx) st (mc + 1) idx hok
  simp only [String.append_empty, String.empty_append] at h2
  simp only [turnStep, h2]
  rfl

lemma turnStep_failure (a1 a2 : String) (cv : List ConversationEntry) (ch : List ChatMsg)
    (e : ConversationEntry) (m : ChatMsg) (mc idx : Nat) (st : String) :
    turnStep a1 a2 .failure ⟨cv ++ [e], ch ++ [m], mc, idx, true, st⟩ =
      .ok (⟨cv ++ [⟨e.name, "Error generating response."⟩],
            ch ++ [⟨m.role, agentName a1 a2 idx ++ ": " ++ "Error generating response."⟩],
            mc, 1 - idx, true, agentName a1 a2 idx ++ " finished responding."⟩,
           false) := by
  have hset1 : setLast (ch ++ [m])
      (fun mm => { mm with content := agentName a1 a2 idx ++ ": " ++ "Error generating response." }) =
      some (ch ++ [⟨m.role, agentName a1 a2 idx ++ ": " ++ "Error generating response."⟩]) :=
    setLast_append ch _ _
  have hset2 : setLast (cv ++ [e])
      (fun ee => { ee with content := "Error generating response." }) =
      some (cv ++ [⟨e.name, "Error generating response."⟩]) :=
    setLast_append cv _ _
  simp only [turnStep, hset1, hset2]
  rfl

lemma streamLoop_frame (lines : List StreamLine) :
    ∀ (nm acc : String) (s : LoopState) (f : String) (s2 : LoopState),
      streamLoop nm lines acc s = .ok (f, s2) →
      s2.message_count = s.message_count ∧
        s2.current_agent_index = s.current_agent_index ∧
        s2.running = s.running := by
  induction lines with
  | nil =>
    intro nm acc s f s2 h
    rw [streamLoop] at h
    simp only [Except.ok.injEq, Prod.mk.injEq] at h
    obtain ⟨-, rfl⟩ := h
    exact ⟨rfl, rfl, rfl⟩
  | cons l rest ih =>
    intro nm acc s f s2 h
    cases l with
    | empty =>
      rw [streamLoop] at h
      by_cases hr : s.running = false
      · rw [if_pos hr] at h
        simp only [Except.ok.injEq, Prod.mk.injEq] at h
        obtain ⟨-, rfl⟩ := h
        exact ⟨rfl, rfl, rfl⟩
      · rw [if_neg hr] at h
        exact ih nm acc s f s2 h
    | badJson raw =>
      rw [streamLoop] at h
      by_cases hr : s.running = false
      · rw [if_pos hr] at h
        simp only [Except.ok.injEq, Prod.mk.injEq] at h
        obtain ⟨-, rfl⟩ := h
        exact ⟨rfl, rfl, rfl⟩
      · rw [if_neg hr] at h
        exact absurd h (by simp)
    | record o =>
      cases o with
      | none =>
        rw [streamLoop] at h
        by_cases hr : s.running = false
        · rw [if_pos hr] at h
          simp only [Except.ok.injEq, Prod.mk.injEq] at h
          obtain ⟨-, rfl⟩ := h
          exact ⟨rfl, rfl, rfl⟩
        · rw [if_neg hr] at h
          exact ih nm acc s f s2 h
      | some r =>
        rw [streamLoop] at h
        by_cases hr : s.running = false
        · rw [if_pos hr] at h
          simp only [Except.ok.injEq, Prod.mk.injEq] at h
          obtain ⟨-, rfl⟩ := h
          exact ⟨rfl, rfl, rfl⟩
        · rw [if_neg hr] at h
          simp only [] at h
          rcases hch : setLast s.chat_history
              (fun m => { m with content := nm ++ ": " ++ (acc ++ r) }) with _ | ch2
          · rw [hch] at h
            simp at h
          · rcases hcv : setLast s.conversation
                (fun e => { e with content := acc ++ r }) with _ | cv2
            · rw [hch, hcv] at h
              simp at h
            · rw [hch, hcv] at h
              have h3 := ih _ _ _ _ _ h
              simpa using h3

lemma turnStep_frame (a1 a2 : String) (o : TurnOutcome) (s s2 : LoopState)
    (b : Bool) (hrun : s.running = true)
    (h : turnStep a1 a2 o s = .ok (s2, b)) :
    b = false ∧ s2.current_agent_index = 1 - s.current_agent_index ∧
      s2.running = true ∧ s.message_count ≤ s2.message_count ∧
      s2.message_count ≤ s.message_count + 1 := by
  cases o with
  | success lines =>
    simp only [turnStep] at h
    split at h
    · simp at h
    · rename_i sB heq
      split at heq
      · simp at heq
      · rename_i xx f2 s3 hsl
        obtain rfl : s3 = sB := by injection heq
        obtain ⟨hmc, hidx, hrn⟩ := streamLoop_frame lines _ _ _ _ _ hsl
        simp only [] at hmc hidx hrn
        rw [hrun] at hrn
        rw [if_neg (by rw [hrn]; simp)] at h
        simp only [Except.ok.injEq, Prod.mk.injEq] at h
        obtain ⟨rfl, rfl⟩ := h
        refine ⟨rfl, ?_, ?_, ?_, ?_⟩
        · simp [hidx]
        · simp [hrn]
        · simp [hmc]
        · simp [hmc]
  | failure =>
    simp only [turnStep] at h
    split at h
    · simp at h
    · rename_i sB heq
      split at heq
      · rename_i x1 x2 ch2 cv2 hch hcv
        injection heq with heq2
        subst heq2
        rw [if_neg (by simp [hrun])] at h
        simp only [Except.ok.injEq, Prod.mk.injEq] at h
        obtain ⟨rfl, rfl⟩ := h
        refine ⟨rfl, ?_, ?_, ?_, ?_⟩
        · simp
        · simp [hrun]
        · simp
        · simp
      · simp at heq

lemma debateLoop_stuck (a1 a2 : String) (outs : List TurnOutcome) (s : LoopState)
    (hmc : 1000 ≤ s.message_count) :
    debateLoop a1 a2 outs s = .ok s := by
  cases outs with
  | nil => rfl
  | cons o rest =>
    rw [debateLoop, if_neg]
    exact fun hc => absurd hc.1 (by omega)

/-- C4: under a run of the loop that returns normally, with the index in
range and the message cap not in reach, the agent index after the supplied
turns equals the initial index XOR the parity of the number of turns. -/
theorem alternation_of_completed_turns (a1 a2 : String) (outs : List TurnOutcome) :
    ∀ s s2 : LoopState, s.running = true → s.current_agent_index ≤ 1 →
      s.message_count + outs.length ≤ 1000 →
      debateLoop a1 a2 outs s = .ok s2 →
      s2.current_agent_index = s.current_agent_index ^^^ (outs.length % 2) := by
  induction outs with
  | nil =>
    intro s s2 hrun hidx hcap h
    rw [debateLoop] at h
    injection h with h2
    subst h2
    simp
  | cons o rest ih =>
    intro s s2 hrun hidx hcap h
    simp only [List.length_cons] at hcap
    rw [debateLoop, if_pos ⟨by omega, hrun⟩] at h
    rcases hts : turnStep a1 a2 o s with e | ⟨s3, b⟩
    · rw [hts] at h
      simp at h
    · rw [hts] at h
      obtain ⟨hb, hidx3, hrn3, hmc1, hmc2⟩ := turnStep_frame a1 a2 o s s3 b hrun hts
      subst hb
      have h2 := ih s3 s2 hrn3 (by rw [hidx3]; omega) (by omega) h
      rw [List.length_cons, h2, hidx3]
      rcases Nat.mod_two_eq_zero_or_one rest.length with h0 | h0
      · have hm : (rest.length + 1) % 2 = 1 := by omega
        rw [h0, hm]
        rcases (show s.current_agent_index = 0 ∨ s.current_agent_index = 1 by omega)
          with h1 | h1 <;> rw [h1] <;> decide
      · have hm : (rest.length + 1) % 2 = 0 := by omega
        rw [h0, hm]
        rcases (show s.current_agent_index = 0 ∨ s.current_agent_index = 1 by omega)
          with h1 | h1 <;> rw [h1] <;> decide

/-- Witness for alternation_of_completed_turns on a concrete two-turn run. -/
theorem alternation_of_completed_turns_witness :
    ∃ s2 : LoopState, debateLoop "A" "B" [.success [], .success []]
        ⟨[], [], 0, 0, true, ""⟩ = .ok s2 ∧
      s2.current_agent_index = 0 ^^^ (([TurnOutcome.success [], .success []]).length % 2) := by
  refine ⟨_, rfl, ?_⟩
  exact alternation_of_completed_turns "A" "B" [.success [], .success []]
    ⟨[], [], 0, 0, true, ""⟩ _ rfl (by decide) (by decide) rfl

/-- C7: from message_count 999 and the running flag still true, one more
successful turn drives message_count to 1000, the loop returns without
consuming the rest of the schedule, and the epilogue reports the limit
status with running false. -/
theorem message_limit_halts (a1 a2 : String) (lines : List StreamLine)
    (outs : List TurnOutcome) (s : LoopState)
    (hrun : s.running = true) (hmc : s.message_count = 999)
    (hok : linesOk lines = true) :
    ∃ s2, debateLoop a1 a2 (.success lines :: outs) s = .ok s2 ∧
      s2.message_count = 1000 ∧
      (debateEpilogue s2).status = "Debate ended after reaching message limit." ∧
      (debateEpilogue s2).running = false := by
  obtain ⟨cv, ch, mc, idx, rn, st⟩ := s
  simp only [] at hrun hmc
  subst hrun
  subst hmc
  have hts := turnStep_success a1 a2 lines ⟨cv, ch, 999, idx, true, st⟩ rfl hok
  refine ⟨⟨cv ++ [⟨agentName a1 a2 idx, frags lines⟩],
    ch ++ [⟨roleFor idx, agentName a1 a2 idx ++ ": " ++ frags lines⟩],
    999 + 1, 1 - idx, true,
    agentName a1 a2 idx ++ " finished responding."⟩, ?_, rfl, rfl, rfl⟩
  rw [debateLoop, if_pos ⟨by show (999:Nat) < 1000; omega, rfl⟩, hts]
  exact debateLoop_stuck a1 a2 outs _ (by show (1000:Nat) ≤ 999 + 1; omega)

/-- Witness for message_limit_halts at a concrete state and schedule. -/
theorem message_limit_halts_witness :
    ∃ s2, debateLoop "A" "B" [.success [.record (some "x")], .failure]
        ⟨[], [], 999, 0, true, ""⟩ = .ok s2 ∧
      s2.message_count = 1000 ∧
      (debateEpilogue s2).status = "Debate ended after reaching message limit." ∧
      (debateEpilogue s2).running = false :=
  message_limit_halts "A" "B" [.record (some "x")] [.failure]
    ⟨[], [], 999, 0, true, ""⟩ rfl rfl rfl

/-- C1 counterexample: a failed generation turn on a one-entry transcript
leaves message_count at 5, not 6, while the claim demands an increment. -/
theorem failure_turn_count_cex :
    turnStep "A" "B" .failure ⟨[⟨"A", "x"⟩], [⟨"user", "A: x"⟩], 5, 0, true, "s"⟩ =
      .ok (⟨[⟨"A", "Error generating response."⟩],
            [⟨"user", "A: Error generating response."⟩],
            5, 1, true, "A finished responding."⟩, false) ∧ (5 : Nat) ≠ 5 + 1 :=
  ⟨rfl, by decide⟩

/-- C1 amended: on a failed generation call with a non-empty transcript, the
sentinel text overwrites the last existing entry of both transcript lists,
no new entry is appended, current_agent_index toggles, and message_count
stays unchanged. -/
theorem failure_turn_sentinel (a1 a2 : String) (cv : List ConversationEntry)
    (ch : List ChatMsg) (e : ConversationEntry) (m : ChatMsg) (mc idx : Nat)
    (st : String) :
    turnStep a1 a2 .failure ⟨cv ++ [e], ch ++ [m], mc, idx, true, st⟩ =
      .ok (⟨cv ++ [⟨e.name, "Error generating response."⟩],
            ch ++ [⟨m.role, agentName a1 a2 idx ++ ": " ++ "Error generating response."⟩],
            mc, 1 - idx, true, agentName a1 a2 idx ++ " finished responding."⟩,
           false) :=
  turnStep_failure a1 a2 cv ch e m mc idx st

/-- C2 counterexample: a single line that json.loads cannot parse aborts the
whole debate loop with JSONDecodeError instead of being skipped. -/
theorem malformed_line_fatal_cex :
    debateLoop "A" "B" [.success [.record (some "ok"), .badJson "not json"]]
      ⟨[], [], 0, 0, true, ""⟩ = .error .jsonDecodeError := rfl

/-- C2 amended: while the debate is running, an empty line and a parsed
record without a response field are skipped and consumption continues, but a
non-empty line that json.loads cannot parse raises and is fatal to the
stream. -/
theorem stream_skip_and_fatal (nm : String) (rest : List StreamLine)
    (acc raw : String) (s : LoopState) (hrun : s.running = true) :
    streamLoop nm (.empty :: rest) acc s = streamLoop nm rest acc s ∧
    streamLoop nm (.record none :: rest) acc s = streamLoop nm rest acc s ∧
    streamLoop nm (.badJson raw :: rest) acc s = .error .jsonDecodeError := by
  refine ⟨?_, ?_, ?_⟩ <;> rw [streamLoop, if_neg (by rw [hrun]; simp)]

/-- Witness for stream_skip_and_fatal at concrete inputs. -/
theorem stream_skip_and_fatal_witness :
    streamLoop "A" [.empty] "x" ⟨[], [], 0, 0, true, ""⟩ =
      streamLoop "A" [] "x" ⟨[], [], 0, 0, true, ""⟩ ∧
    streamLoop "A" [.record none] "x" ⟨[], [], 0, 0, true, ""⟩ =
      streamLoop "A" [] "x" ⟨[], [], 0, 0, true, ""⟩ ∧
    streamLoop "A" [.badJson "oops"] "x" ⟨[], [], 0, 0, true, ""⟩ =
      .error .jsonDecodeError :=
  stream_skip_and_fatal "A" [] "x" "oops" ⟨[], [], 0, 0, true, ""⟩ rfl

/-- C5: when the connectivity probe fails and the debate is not already
running, start_debate returns the connect-failed status with the state
untouched and never enters the loop. -/
theorem connect_fail_no_mutation (a1 a2 : String) (randIdx : Nat)
    (outs : List TurnOutcome) (st : DebateState) (h : st.running = false) :
    start_debate a1 a2 false randIdx outs st =
      .connectFailed st
        "Cannot connect to Ollama server. Please check the URL and ensure the server is running." := by
  rw [start_debate, if_neg (by simp [h]), if_pos rfl]

/-- Witness for connect_fail_no_mutation on a fresh state. -/
theorem connect_fail_no_mutation_witness :
    start_debate "A" "B" false 0 [] ⟨false, [], [], 0, none⟩ =
      .connectFailed ⟨false, [], [], 0, none⟩
        "Cannot connect to Ollama server. Please check the URL and ensure the server is running." :=
  connect_fail_no_mutation "A" "B" 0 [] ⟨false, [], [], 0, none⟩ rfl

/-- C6 counterexample: with the single fragment "Hello ", the committed
transcript content keeps the trailing blank; the strip of line 330 is never
written back, so the stored content differs from its stripped form. -/
theorem final_strip_cex :
    turnStep "A" "B" (.success [.record (some "Hello ")]) ⟨[], [], 0, 0, true, ""⟩ =
      .ok (⟨[⟨"A", "Hello "⟩], [⟨"user", "A: Hello "⟩], 1, 1, true,
            "A finished responding."⟩, false) ∧
    pyStrip "Hello " = "Hello" ∧ ("Hello " : String) ≠ pyStrip "Hello " :=
  ⟨rfl, by decide, by decide⟩

/-- C6 amended: a turn whose fragment sequence ends normally commits the
plain concatenation of the fragments, with the display copy carrying the
agent-name colon-space head; no strip is applied to the stored text. -/
theorem success_turn_final_content (a1 a2 : String) (lines : List StreamLine)
    (s : LoopState) (hrun : s.running = true) (hok : linesOk lines = true) :
    turnStep a1 a2 (.success lines) s =
      .ok ({ conversation := s.conversation ++
               [⟨agentName a1 a2 s.current_agent_index, frags lines⟩],
             chat_history := s.chat_history ++
               [⟨roleFor s.current_agent_index,
                 agentName a1 a2 s.current_agent_index ++ ": " ++ frags lines⟩],
             message_count := s.message_count + 1,
             current_agent_index := 1 - s.current_agent_index,
             running := true,
             status := agentName a1 a2 s.current_agent_index ++ " finished responding." },
           false) :=
  turnStep_success a1 a2 lines s hrun hok

/-- Witness for success_turn_final_content on one fragment with blanks. -/
theorem success_turn_final_content_witness :
    turnStep "A" "B" (.success [.record (some " hi ")]) ⟨[], [], 0, 0, true, ""⟩ =
      .ok (⟨[⟨"A", " hi "⟩], [⟨"user", "A:  hi "⟩], 1, 1, true,
            "A finished responding."⟩, false) :=
  success_turn_final_content "A" "B" [.record (some " hi ")]
    ⟨[], [], 0, 0, true, ""⟩ rfl rfl

/-- C8: start_debate on a state already marked running returns alreadyRunning
with the same state and never reaches the loop. -/
theorem start_idempotent_when_running (a1 a2 : String) (connected : Bool)
    (randIdx : Nat) (outs : List TurnOutcome) (st : DebateState)
    (h : st.running = true) :
    start_debate a1 a2 connected randIdx outs st = .alreadyRunning st := by
  rw [start_debate, if_pos h]

/-- Witness for start_idempotent_when_running. -/
theorem start_idempotent_when_running_witness :
    start_debate "A" "B" true 1 [.failure] ⟨true, [], [], 3, some 1⟩ =
      .alreadyRunning ⟨true, [], [], 3, some 1⟩ :=
  start_idempotent_when_running "A" "B" true 1 [.failure] ⟨true, [], [], 3, some 1⟩ rfl

/-- C9: after reset_debate the conversation and chat history are empty, the
count is zero, the agent index is unset and running is false, whatever the
prior state. -/
theorem reset_clears_state (st : DebateState) :
    (reset_debate st).1.conversation = [] ∧ (reset_debate st).1.chat_history = [] ∧
    (reset_debate st).1.message_count = 0 ∧
    (reset_debate st).1.current_agent_index = none ∧
    (reset_debate st).1.running = false :=
  ⟨rfl, rfl, rfl, rfl, rfl⟩

/-- C10: on a fresh session whose very first generation call fails, the
sentinel write lands on the last element of an empty list and the run aborts
with IndexError instead of committing sentinel content. -/
theorem fresh_failure_crash :
    start_debate "Climate Scientist" "Conservative Farmer" true 0 [.failure]
      ⟨false, [], [], 0, none⟩ = .ran (.error .indexError) := rfl
